import Mathlib

/-!
Verification development for the lasun Telegram batching bot.

The definitions below are a shallow embedding of the repository's source:
  * `src/utils/helpers.py` — filename classifier (`extract_file_details`),
    link labels (`create_link_label`), natural sort, post composition
    (`create_post`);
  * `src/handlers/new_post.py` — `get_batch_key`;
  * `src/bot.py` — the file-processor worker, the per-(user, key) batching
    state with its locks and flush tasks (`Bot.file_processor_worker`,
    `Bot.process_batch_task`), and the multi-channel publish loop.

Strings are modelled as `List Char`; the Python regexes of `helpers.py` are
embedded as explicit scanners with the same alternation order, greediness
and word-boundary behaviour, restricted to the ASCII case mapping (Python
`str.lower` agrees with this on ASCII, which is the alphabet of the
patterns involved). Case-insensitive regexes are run on the case-folded
copy of the text, which matches `re.IGNORECASE` on ASCII input.
-/

set_option maxRecDepth 8000

namespace Lasun

/-! ### Character helpers (ASCII fragment of Python's str methods) -/

/-- Python `str.lower` on one ASCII character. -/
def lowerCh (c : Char) : Char :=
  if 65 ≤ c.toNat ∧ c.toNat ≤ 90 then Char.ofNat (c.toNat + 32) else c

/-- Python `str.upper` on one ASCII character. -/
def upperCh (c : Char) : Char :=
  if 97 ≤ c.toNat ∧ c.toNat ≤ 122 then Char.ofNat (c.toNat - 32) else c

/-- Case-fold a string (`str.lower`). -/
def nf (s : List Char) : List Char := s.map lowerCh

/-- Uppercase a string (`str.upper`). -/
def upStr (s : List Char) : List Char := s.map upperCh

/-- The regex class `\w` (ASCII): letters, digits, underscore. -/
def isWordCh (c : Char) : Bool :=
  decide ((65 ≤ c.toNat ∧ c.toNat ≤ 90) ∨ (97 ≤ c.toNat ∧ c.toNat ≤ 122) ∨
    (48 ≤ c.toNat ∧ c.toNat ≤ 57) ∨ c.toNat = 95)

/-- The regex class `\s` (ASCII), also Python `str.split` whitespace. -/
def isSpaceCh (c : Char) : Bool :=
  decide (c.toNat = 32 ∨ c.toNat = 9 ∨ c.toNat = 10 ∨ c.toNat = 13 ∨
    c.toNat = 11 ∨ c.toNat = 12)

/-- The regex class `\d` (ASCII digits). -/
def isDigitCh (c : Char) : Bool := decide (48 ≤ c.toNat ∧ c.toNat ≤ 57)

/-- Python `int` on a digit string. -/
def toNatD (ds : List Char) : Nat := ds.foldl (fun a c => a * 10 + (c.toNat - 48)) 0

/-- Literal prefix test (the way a regex literal consumes characters). -/
def litPre : List Char → List Char → Bool
  | [], _ => true
  | _ :: _, [] => false
  | p :: ps, c :: cs => decide (p = c) && litPre ps cs

/-- Word boundary `\b` before a word character: previous char absent or non-word. -/
def boundaryB (prev : Option Char) : Bool :=
  match prev with
  | none => true
  | some c => !isWordCh c

/-- Word boundary `\b` after a word character: next char absent or non-word. -/
def boundaryA : List Char → Bool
  | [] => true
  | c :: _ => !isWordCh c

/-- Up to `k` leading digits (greedy `\d{1,k}` before its boundary check). -/
def takeDigits (k : Nat) : List Char → List Char
  | [] => []
  | c :: cs =>
    if isDigitCh c then
      match k with
      | 0 => []
      | k + 1 => c :: takeDigits k cs
    else []

/-- Python `f"{n:02d}"` for a nonnegative int. -/
def pad2 (n : Nat) : List Char := if n < 10 then '0' :: (Nat.repr n).data else (Nat.repr n).data

/-! ### Regex scanners for `extract_file_details` (helpers.py lines 11-92).

Each scanner is run on the case-folded text, mirroring `re.IGNORECASE`;
alternatives are tried in the order the source pattern lists them, with the
same greediness and backtracking behaviour. -/

/-- Match of `(19[89]\d|20\d{2})\b` at the head of the text (the leading `\b`
is checked by the caller). Returns the year token. -/
def yearAt : List Char → Option (List Char)
  | '1' :: '9' :: c :: d :: rest =>
    if (c = '8' ∨ c = '9') ∧ isDigitCh d ∧ boundaryA rest then some ['1', '9', c, d]
    else none
  | '2' :: '0' :: c :: d :: rest =>
    if isDigitCh c ∧ isDigitCh d ∧ boundaryA rest then some ['2', '0', c, d] else none
  | _ => none

/-- Generic leftmost-match search (re.search): try the matcher at every
position, feeding it the previous character for `\b` checks. -/
def scanFirst (m : Option Char → List Char → Option α) : Option Char → List Char → Option α
  | _, [] => none
  | prev, c :: cs =>
    match m prev (c :: cs) with
    | some r => some r
    | none => scanFirst m (some c) cs

/-- `re.search(r'\b(19[89]\d|20\d{2})\b', s)`: the year group. -/
def yearSearch (s : List Char) : Option (List Char) :=
  scanFirst (fun prev t => if boundaryB prev then yearAt t else none) none s

/-- Match of `[eE]\d{1,k}` at the head: the digits group (greedy, max `k`). -/
def epTail (k : Nat) : List Char → Option (List Char)
  | 'e' :: rest =>
    let ds := takeDigits k rest
    if ds = [] then none else some ds
  | _ => none

/-- Match of `[._ ]?[eE]\d{1,3}` at the head: greedily try to consume one
separator first, then fall back to no separator. -/
def seSepTail : List Char → Option (List Char)
  | [] => none
  | c :: cs =>
    if c = '.' ∨ c = '_' ∨ c = ' ' then
      match epTail 3 cs with
      | some ds => some ds
      | none => epTail 3 (c :: cs)
    else epTail 3 (c :: cs)

/-- Match of `[sS](\d{1,2})[._ ]?[eE](\d{1,3})` at the head: the pair of
digit groups. Two season digits are tried before one (greedy `\d{1,2}`). -/
def seAt : List Char → Option (Nat × Nat)
  | 's' :: d1 :: d2 :: r2 =>
    if isDigitCh d1 then
      if isDigitCh d2 then
        match seSepTail r2 with
        | some eds => some (toNatD [d1, d2], toNatD eds)
        | none =>
          match seSepTail (d2 :: r2) with
          | some eds => some (toNatD [d1], toNatD eds)
          | none => none
      else
        match seSepTail (d2 :: r2) with
        | some eds => some (toNatD [d1], toNatD eds)
        | none => none
    else none
  | _ => none

/-- `re.search` for the season/episode pattern (no word boundaries). -/
def seSearch (s : List Char) : Option (Nat × Nat) :=
  scanFirst (fun _ t => seAt t) none s

/-- Greedy `\d{1,k}\b` at the head: digits followed by a trailing boundary. -/
def digitsBd (k : Nat) (s : List Char) : Option (List Char) :=
  let ds := takeDigits k s
  if ds = [] then none
  else if boundaryA (s.drop ds.length) then some ds else none

/-- `\s?\d{1,k}\b` at the head; returns (digits, consumed length). -/
def spDigits (k : Nat) : List Char → Option (List Char × Nat)
  | [] => none
  | c :: cs =>
    if isSpaceCh c then
      match digitsBd k cs with
      | some ds => some (ds, ds.length + 1)
      | none =>
        match digitsBd k (c :: cs) with
        | some ds => some (ds, ds.length)
        | none => none
    else
      match digitsBd k (c :: cs) with
      | some ds => some (ds, ds.length)
      | none => none

/-- Ordered alternation `(a1|a2|...)\s?\d{1,k}\b` at the head; returns
(digits, total consumed length). -/
def altSpDigits (alts : List (List Char)) (k : Nat) (s : List Char) : Option (List Char × Nat) :=
  match alts with
  | [] => none
  | a :: as =>
    if litPre a s then
      match spDigits k (s.drop a.length) with
      | some (ds, n) => some (ds, a.length + n)
      | none => altSpDigits as k s
    else altSpDigits as k s

/-- The alternatives of the episode probe, in source order. -/
def epAlts : List (List Char) := ["episode".data, "ep".data, "e".data, "part".data]

/-- The alternatives of the season probe, in source order. -/
def seasonAlts : List (List Char) := ["season".data, "s".data]

/-- `re.search(r'\b(episode|ep|e|part)\s?(\d{1,3})\b', s)`: the digits group. -/
def epSearch (s : List Char) : Option (List Char) :=
  scanFirst
    (fun prev t => if boundaryB prev then (altSpDigits epAlts 3 t).map Prod.fst else none)
    none s

/-- `re.search(r'\b(season|s)\s?(\d{1,2})\b', s)`: the digits group. -/
def seasonSearch (s : List Char) : Option (List Char) :=
  scanFirst
    (fun prev t => if boundaryB prev then (altSpDigits seasonAlts 2 t).map Prod.fst else none)
    none s

/-- Ordered word alternation `\b(l1|l2|...)\b` at the head (leading `\b`
checked by the caller). Entries pair the matched literal with its canonical
output; returns (output, literal length). -/
def altWord (alts : List (List Char × List Char)) (s : List Char) : Option (List Char × Nat) :=
  match alts with
  | [] => none
  | (a, out) :: as =>
    if litPre a s ∧ boundaryA (s.drop a.length) then some (out, a.length)
    else altWord as s

/-- `re.search` over a word alternation. -/
def altWordSearch (alts : List (List Char × List Char)) (s : List Char) :
    Option (List Char × Nat) :=
  scanFirst (fun prev t => if boundaryB prev then altWord alts t else none) none s

/-- Resolution alternatives; `group(1).lower()` in the source is the literal
itself since matching is done on folded text. -/
def resAlts : List (List Char × List Char) :=
  [("2160p".data, "2160p".data), ("1080p".data, "1080p".data), ("720p".data, "720p".data),
   ("480p".data, "480p".data), ("360p".data, "360p".data), ("240p".data, "240p".data)]

/-- Quality alternatives with their `.upper()` canonical form. -/
def qualAlts : List (List Char × List Char) :=
  [("4k".data, "4K".data), ("uhd".data, "UHD".data), ("fhd".data, "FHD".data),
   ("hd".data, "HD".data), ("sd".data, "SD".data)]

/-- Source alternatives with `.upper().replace("-", "")` applied. -/
def srcAlts : List (List Char × List Char) :=
  [("bluray".data, "BLURAY".data), ("blu-ray".data, "BLURAY".data),
   ("bdrip".data, "BDRIP".data), ("brrip".data, "BRRIP".data),
   ("web-dl".data, "WEBDL".data), ("webdl".data, "WEBDL".data),
   ("webrip".data, "WEBRIP".data), ("hdrip".data, "HDRIP".data),
   ("dvdscr".data, "DVDSCR".data), ("dvd-rip".data, "DVDRIP".data)]

/-- `if not resolution.endswith('p'): resolution += 'p'` (helpers.py 57-58). -/
def ensureP (r : List Char) : List Char :=
  match r.reverse with
  | 'p' :: _ => r
  | _ => r ++ ['p']

/-- Match one audio alternative at the head:
`(hindi|english|tamil|telugu|dual[\s-]?audio|multi[\s-]?audio)\b` with the
source's `.replace('-', ' ').title()` applied to the matched text. Returns
(canonical output, matched length). -/
def audioDM (lead : List Char) (leadTitled : List Char) (joinedTitled : List Char)
    (s : List Char) : Option (List Char × Nat) :=
  if litPre lead s then
    let rest := s.drop lead.length
    match rest with
    | x :: r =>
      if (isSpaceCh x ∨ x = '-') ∧ litPre "audio".data r ∧ boundaryA (r.drop 5) then
        some (leadTitled ++ (if x = '-' then ' ' else x) :: "Audio".data, lead.length + 6)
      else if litPre "audio".data rest ∧ boundaryA (rest.drop 5) then
        some (joinedTitled, lead.length + 5)
      else none
    | [] => none
  else none

/-- One audio alternation step at the head (leading `\b` checked by caller). -/
def audioAt (s : List Char) : Option (List Char × Nat) :=
  match altWord [("hindi".data, "Hindi".data), ("english".data, "English".data),
      ("tamil".data, "Tamil".data), ("telugu".data, "Telugu".data)] s with
  | some r => some r
  | none =>
    match audioDM "dual".data "Dual".data "Dualaudio".data s with
    | some r => some r
    | none => audioDM "multi".data "Multi".data "Multiaudio".data s

/-- The last character of the first `n` characters, case-folded (the
previous-character context after skipping a match). -/
def prevAfter (s : List Char) (n : Nat) : Option Char :=
  ((s.take n).getLast?).map lowerCh

/-- `re.findall` over the audio alternation: leftmost non-overlapping
matches, canonicalised. -/
def audioScan (fuel : Nat) (prev : Option Char) (s : List Char) : List (List Char) :=
  match fuel, s with
  | 0, _ => []
  | _ + 1, [] => []
  | fuel + 1, c :: cs =>
    if boundaryB prev then
      match audioAt (c :: cs) with
      | some (out, len) => out :: audioScan fuel (prevAfter (c :: cs) len) ((c :: cs).drop len)
      | none => audioScan fuel (some c) cs
    else audioScan fuel (some c) cs

/-! ### String-rewriting passes (re.sub / str.replace / str.split) -/

/-- Scan to the first closing delimiter, not crossing a newline (`.` in the
source patterns does not match `\n`); returns the text after it. -/
def findClose (cl : Char) : List Char → Option (List Char)
  | [] => none
  | c :: cs => if c = cl then some cs else if c = '\n' then none else findClose cl cs

/-- `re.sub(r'\[.*?\]', '', s)` (and the `\(.*?\)` pass): drop every
leftmost non-greedy delimited group. -/
def removeDelim (op cl : Char) (fuel : Nat) (s : List Char) : List Char :=
  match fuel, s with
  | 0, t => t
  | _ + 1, [] => []
  | fuel + 1, c :: cs =>
    if c = op then
      match findClose cl cs with
      | some rest => removeDelim op cl fuel rest
      | none => c :: removeDelim op cl fuel cs
    else c :: removeDelim op cl fuel cs

/-- `re.sub(r'(\.\w+$)', '', s)`: drop a final dot-extension of word
characters, when present — the trailing run of word characters is removed
together with the dot just before it, when that run is non-empty. -/
def extRemove (s : List Char) : List Char :=
  match s.reverse.drop (s.reverse.takeWhile isWordCh).length with
  | c :: rest =>
    if c = '.' ∧ ¬(s.reverse.takeWhile isWordCh).isEmpty then rest.reverse else s
  | [] => s

/-- `s.replace('_', ' ').replace('.', ' ')`. -/
def sepReplace (s : List Char) : List Char :=
  s.map fun c => if c = '_' ∨ c = '.' then ' ' else c

/-- Python `s.replace(p, '')`: remove every leftmost non-overlapping
occurrence of `p` (used with the year token). -/
def replaceAll (p : List Char) (fuel : Nat) (s : List Char) : List Char :=
  match fuel, s with
  | 0, t => t
  | _ + 1, [] => []
  | fuel + 1, c :: cs =>
    if litPre p (c :: cs) ∧ p ≠ [] then replaceAll p fuel ((c :: cs).drop p.length)
    else c :: replaceAll p fuel cs

/-- `re.sub(pattern, '', s)` for a matcher that reports a match length at a
position: scan left to right, dropping matches, matching on the case-folded
text while keeping the unmatched original characters. -/
def subAll (m : Option Char → List Char → Option Nat) (fuel : Nat) (prev : Option Char)
    (s : List Char) : List Char :=
  match fuel, s with
  | 0, t => t
  | _ + 1, [] => []
  | fuel + 1, c :: cs =>
    match m prev (nf (c :: cs)) with
    | some (n + 1) => subAll m fuel (prevAfter (nf (c :: cs)) (n + 1)) ((c :: cs).drop (n + 1))
    | _ => c :: subAll m fuel (some (lowerCh c)) cs

/-- Python `s.split()`: words separated by whitespace runs. -/
def splitWs (fuel : Nat) (s : List Char) : List (List Char) :=
  match fuel with
  | 0 => []
  | fuel + 1 =>
    match s.dropWhile isSpaceCh with
    | [] => []
    | c :: cs =>
      let w := (c :: cs).takeWhile (fun x => !isSpaceCh x)
      w :: splitWs fuel ((c :: cs).drop w.length)

/-- `' '.join(words)`. -/
def joinWords : List (List Char) → List Char
  | [] => []
  | [w] => w
  | w :: ws => w ++ ' ' :: joinWords ws

/-- `" ".join(x.split())`: collapse whitespace runs to single spaces. -/
def collapseWs (s : List Char) : List Char := joinWords (splitWs (s.length + 1) s)

/-- `filename.rsplit('.', 1)[0]`: the part before the last dot (the whole
string when it has no dot). -/
def pyStem (s : List Char) : List Char :=
  if (s.reverse.takeWhile fun c => decide (c ≠ '.')).length = s.reverse.length then s
  else (s.reverse.drop ((s.reverse.takeWhile fun c => decide (c ≠ '.')).length + 1)).reverse

/-! ### Title stripping (helpers.py lines 76-88): eight `re.sub` passes in
source order over the year-stripped cleaned name. -/

/-- `[sS]\d{1,2}[eE]\d{1,3}` at the head (no boundaries, no separator):
match length. -/
def seStripAt : List Char → Option Nat
  | 's' :: d1 :: rest =>
    if isDigitCh d1 then
      match rest with
      | d2 :: r2 =>
        if isDigitCh d2 then
          match epTail 3 r2 with
          | some ds => some (4 + ds.length)
          | none =>
            match epTail 3 (d2 :: r2) with
            | some ds => some (3 + ds.length)
            | none => none
        else
          match epTail 3 (d2 :: r2) with
          | some ds => some (3 + ds.length)
          | none => none
      | [] => none
    else none
  | _ => none

/-- Pass 1 matcher: the `[sS]\d{1,2}[eE]\d{1,3}` tag. -/
def mSE : Option Char → List Char → Option Nat := fun _ s => seStripAt s

/-- Pass 2 matcher: `\b(episode|ep|e|part)\s?\d{1,3}\b`. -/
def mEp : Option Char → List Char → Option Nat := fun prev s =>
  if boundaryB prev then (altSpDigits epAlts 3 s).map Prod.snd else none

/-- Pass 3 matcher: `\b(season|s)\s?\d{1,2}\b`. -/
def mSeason : Option Char → List Char → Option Nat := fun prev s =>
  if boundaryB prev then (altSpDigits seasonAlts 2 s).map Prod.snd else none

/-- A word-alternation matcher giving the match length. -/
def mWordAlt (alts : List (List Char × List Char)) : Option Char → List Char → Option Nat :=
  fun prev s => if boundaryB prev then (altWord alts s).map Prod.snd else none

/-- Pass 4 alternatives: resolutions then quality tags, in source order. -/
def resQualAlts : List (List Char × List Char) :=
  resAlts ++ qualAlts

/-- Pass 6 alternatives: the audio tags as written in `tech_tags` (plain
`Dual Audio` / `Multi Audio`, one space, no optional class). -/
def audioTagAlts : List (List Char × List Char) :=
  [("hindi".data, [] ), ("english".data, []), ("tamil".data, []), ("telugu".data, []),
   ("dual audio".data, []), ("multi audio".data, [])]

/-- Pass 7 alternatives: codec tags. -/
def codecAlts : List (List Char × List Char) :=
  [("x264".data, []), ("x265".data, []), ("hevc".data, []), ("aac".data, []),
   ("ac3".data, [])]

/-- One full `re.sub(tag, '', s)` pass over a string. -/
def subAllStage (m : Option Char → List Char → Option Nat) (s : List Char) : List Char :=
  subAll m (s.length + 1) none s

/-- The `\(.*?\)` removal pass. -/
def parenStage (s : List Char) : List Char :=
  removeDelim '(' ')' (s.length + 1) s

/-- The eight title-stripping passes of helpers.py lines 77-86, in order,
ending with the parenthesis removal. -/
def stripTags (s : List Char) : List Char :=
  parenStage (subAllStage (mWordAlt codecAlts) (subAllStage (mWordAlt audioTagAlts)
    (subAllStage (mWordAlt srcAlts) (subAllStage (mWordAlt resQualAlts)
      (subAllStage mSeason (subAllStage mEp (subAllStage mSE s)))))))

/-! ### The classifier record and `extract_file_details` -/

/-- The `details['type']` field: `'movie'` or `'series'`. -/
inductive MType where
  | movie : MType
  | series : MType
deriving DecidableEq, Repr

/-- The dictionary built by `extract_file_details` (helpers.py 20-25). -/
structure FileDetails where
  original_name : List Char
  title : List Char
  year : Option (List Char)
  type : MType
  season : Option Nat
  episode : Option Nat
  quality : Option (List Char)
  resolution : Option (List Char)
  audio : List (List Char)
  source : Option (List Char)
deriving DecidableEq, Repr

/-- The normalisation pipeline of helpers.py 16-18: bracketed content
removed, extension removed, separators replaced by spaces. -/
def cleanedName (filename : List Char) : List Char :=
  sepReplace (extRemove (removeDelim '[' ']' (filename.length + 1) filename))

/-- The cleaned name after the year token is removed (helpers.py 28-32). -/
def cleanedNoYear (filename : List Char) : List Char :=
  let cleaned := cleanedName filename
  match yearSearch (nf cleaned) with
  | some y => replaceAll y (cleaned.length + 1) cleaned
  | none => cleaned

/-- `extract_file_details` (helpers.py 11-92). -/
def extract_file_details (filename : List Char) : FileDetails :=
  let cleaned := cleanedName filename
  let yearO := yearSearch (nf cleaned)
  let cname := cleanedNoYear filename
  let L := nf cname
  let seo := seSearch L
  let tySnEp : MType × Option Nat × Option Nat :=
    match seo with
    | some (sv, ev) => (MType.series, some sv, some ev)
    | none =>
      let epo := (epSearch L).map toNatD
      let sno := (seasonSearch L).map toNatD
      ((if epo.isSome ∨ sno.isSome then MType.series else MType.movie), sno, epo)
  let strip := collapseWs (stripTags cname)
  { original_name := filename
    title := if strip.isEmpty then pyStem filename else strip
    year := yearO
    type := tySnEp.1
    season := tySnEp.2.1
    episode := tySnEp.2.2
    quality := (altWordSearch qualAlts L).map Prod.fst
    resolution := ((altWordSearch resAlts L).map Prod.fst).map ensureP
    audio := audioScan (L.length + 1) none L
    source := (altWordSearch srcAlts L).map Prod.fst }

/-! ### `get_batch_key` (handlers/new_post.py 12-27) -/

/-- Python's rendering of the year inside the f-string: the token itself, or
the text `None` when no year was extracted. -/
def yearRepr (y : Option (List Char)) : List Char :=
  match y with
  | some v => v
  | none => "None".data

/-- `get_batch_key(filename)`: `f"{title}_{year}".lower()`, via the same
expression on the series branch and the movie branch. -/
def get_batch_key (filename : List Char) : List Char :=
  let details := extract_file_details filename
  if details.type = MType.series then nf (details.title ++ '_' :: yearRepr details.year)
  else nf (details.title ++ '_' :: yearRepr details.year)

/-! ### `create_link_label` (helpers.py 95-115) -/

/-- Python truthiness of an optional int (`0` and `None` are falsy). -/
def optNTruthy : Option Nat → Bool
  | some (_ + 1) => true
  | _ => false

/-- Python truthiness of an optional string (`None` and `""` are falsy). -/
def optSTruthy : Option (List Char) → Bool
  | some (_ :: _) => true
  | _ => false

/-- Python `str.strip()`. -/
def pyStrip (s : List Char) : List Char :=
  (((s.dropWhile isSpaceCh).reverse).dropWhile isSpaceCh).reverse

/-- `s.replace('.', ' ')`. -/
def dotToSpace (s : List Char) : List Char := s.map fun c => if c = '.' then ' ' else c

/-- `create_link_label(details)` (helpers.py 95-115). -/
def create_link_label (d : FileDetails) : List Char :=
  if d.type = MType.series ∧ optNTruthy d.episode then
    let season_part := if optNTruthy d.season then 'S' :: pad2 (d.season.getD 0) else []
    let episode_part := 'E' :: pad2 (d.episode.getD 0)
    pyStrip (season_part ++ ' ' :: episode_part)
  else if optSTruthy d.resolution then
    let label := upStr (d.resolution.getD [])
    if optSTruthy d.source then label ++ ' ' :: d.source.getD [] else label
  else if optSTruthy d.quality then d.quality.getD []
  else collapseWs (dotToSpace (pyStem d.original_name))

/-! ### `natural_sort_key` (helpers.py 118-120) -/

/-- A token of `re.split('([0-9]+)', s)` after the int/lower mapping. -/
inductive NTok where
  | str : List Char → NTok
  | num : Nat → NTok
deriving DecidableEq, Repr

/-- `re.split('([0-9]+)', s)` with digit runs as ints and text lowercased. -/
def natSplit (fuel : Nat) (s : List Char) : List NTok :=
  match fuel with
  | 0 => []
  | fuel + 1 =>
    let a := s.takeWhile fun c => !isDigitCh c
    let rest := s.drop a.length
    match rest with
    | [] => [NTok.str (nf a)]
    | _ :: _ =>
      let d := rest.takeWhile isDigitCh
      NTok.str (nf a) :: NTok.num (toNatD d) :: natSplit fuel (rest.drop d.length)

/-- `natural_sort_key(s)` (helpers.py 118-120). -/
def natural_sort_key (s : List Char) : List NTok := natSplit (s.length + 1) s

/-- Python string comparison (by code point, then length). -/
def strCmp : List Char → List Char → Ordering
  | [], [] => Ordering.eq
  | [], _ :: _ => Ordering.lt
  | _ :: _, [] => Ordering.gt
  | a :: as, b :: bs =>
    if a.toNat < b.toNat then Ordering.lt
    else if b.toNat < a.toNat then Ordering.gt
    else strCmp as bs

/-- Comparison of key tokens. Python compares str with str and int with int;
mixed tokens never meet at the same index of two keys (tokens alternate with
strings at even positions), so the mixed cases only make the order total. -/
def ntokCmp : NTok → NTok → Ordering
  | NTok.str a, NTok.str b => strCmp a b
  | NTok.num a, NTok.num b => compare a b
  | NTok.str _, NTok.num _ => Ordering.lt
  | NTok.num _, NTok.str _ => Ordering.gt

/-- Python list comparison: lexicographic, a strict prefix is smaller. -/
def keyCmp : List NTok → List NTok → Ordering
  | [], [] => Ordering.eq
  | [], _ :: _ => Ordering.lt
  | _ :: _, [] => Ordering.gt
  | a :: as, b :: bs =>
    match ntokCmp a b with
    | Ordering.eq => keyCmp as bs
    | o => o

/-! ### `create_post` (helpers.py 123-192) -/

/-- Insert `x` before the first element it compares `le` to: the insertion
step of a stable insertion sort. -/
def insL (le : α → α → Bool) (x : α) : List α → List α
  | [] => [x]
  | y :: ys => if le x y then x :: y :: ys else y :: insL le x ys

/-- Stable ascending sort (the unique stable sort for a total preorder, so
it agrees with Python's `list.sort`). -/
def insSort (le : α → α → Bool) : List α → List α
  | [] => []
  | a :: l => insL le a (insSort le l)

/-- A copied message as `create_post` reads it: `m.id`, the media's
`file_unique_id` and `file_name`. -/
structure MsgRec where
  id : Nat
  file_unique_id : List Char
  file_name : List Char
deriving DecidableEq, Repr

/-- One entry of `all_details`: the classifier output enriched with the
message id and file id (helpers.py 135-138). -/
structure PostItem where
  details : FileDetails
  message_id : Nat
  file_unique_id : List Char
deriving DecidableEq, Repr

/-- The sort order of helpers.py 141: stable ascending by
`natural_sort_key(original_name)`. -/
def natKeyLe (a b : PostItem) : Bool :=
  decide (keyCmp (natural_sort_key a.details.original_name)
    (natural_sort_key b.details.original_name) ≠ Ordering.gt)

/-- The slice of the settings record `create_post` and the batch task read. -/
structure UserRec where
  post_channels : List Int
  footer_buttons : List (List Char × List Char)
  show_poster : Bool
deriving DecidableEq, Repr

/-- One piece of the `links` accumulator of helpers.py 167-181: a season
sub-header or one link line. -/
inductive Chunk where
  | seasonHeader : Nat → Chunk
  | link : List Char → List Char → Chunk
deriving DecidableEq, Repr

/-- The deep link `https://t.me/{bot_username}?start=get_{file_unique_id}`. -/
def deepLink (bot_username file_unique_id : List Char) : List Char :=
  "https://t.me/".data ++ bot_username ++ "?start=get_".data ++ file_unique_id

/-- The text a chunk contributes to `links`. The season sub-header is the
source's literal f-string with the fixed text `Mirzapur` (helpers.py 173). -/
def renderChunk : Chunk → List Char
  | Chunk.seasonHeader s => "\n**Mirzapur S".data ++ pad2 s ++ "**\n".data
  | Chunk.link label url =>
    "📤 **".data ++ label ++ "** 👉 [Click Here](".data ++ url ++ ")\n".data

/-- The loop of helpers.py 170-181 as chunks, in iteration order. The
`.error` case is the `TypeError` Python raises formatting `None` with
`:02d` in the season sub-header. -/
def buildLinks (bot_username : List Char) (multi : Bool) :
    Option Nat → List PostItem → Except Unit (List Chunk)
  | _, [] => Except.ok []
  | last, d :: rest =>
    if multi ∧ d.details.season ≠ last then
      match d.details.season with
      | none => Except.error ()
      | some sv =>
        match buildLinks bot_username multi (some sv) rest with
        | Except.ok cs =>
          Except.ok (Chunk.seasonHeader sv ::
            Chunk.link (create_link_label d.details)
              (deepLink bot_username d.file_unique_id) :: cs)
        | Except.error e => Except.error e
    else
      match buildLinks bot_username multi last rest with
      | Except.ok cs =>
        Except.ok (Chunk.link (create_link_label d.details)
          (deepLink bot_username d.file_unique_id) :: cs)
      | Except.error e => Except.error e

/-- `sorted(list(set(d['season'] for d in all_details if d['season'])))`
(helpers.py 150): the distinct truthy seasons, ascending. -/
def dedupSorted : List Nat → List Nat
  | [] => []
  | [a] => [a]
  | a :: b :: r => if a = b then dedupSorted (b :: r) else a :: dedupSorted (b :: r)

/-- The seasons present in the batch (truthy values only), sorted distinct. -/
def seasonsInBatch (items : List PostItem) : List Nat :=
  dedupSorted (insSort (fun a b => decide (a ≤ b))
    (items.filterMap fun d =>
      if optNTruthy d.details.season then d.details.season else none))

/-- The horizontal bar of the caption (23 box-drawing characters). -/
def barLine : List Char := "━━━━━━━━━━━━━━━━━━━━━━━".data

/-- The composed result `(post_poster, final_caption, footer_keyboard)`. -/
structure ComposedPost where
  poster : Option (List Char)
  caption : List Char
  footer : Option (List (List Char × List Char))
deriving DecidableEq, Repr

/-- The header of helpers.py 154-159. -/
def postHeader (title : List Char) (year : Option (List Char)) (is_series multi : Bool)
    (seasons : List Nat) : List Char :=
  let h0 := "🎬 **".data ++ title ++ "**".data
  let h1 := if optSTruthy year then h0 ++ " **(".data ++ year.getD [] ++ ")**".data else h0
  if is_series ∧ ¬multi ∧ seasons ≠ [] then
    h1 ++ " **S".data ++ pad2 (seasons.headD 0) ++ " Complete**".data
  else if multi then
    h1 ++ " **(S".data ++ pad2 (seasons.headD 0) ++ " - S".data ++
      pad2 (seasons.getLastD 0) ++ ")**".data
  else h1

/-- `create_post(client, user_id, messages)` (helpers.py 123-192). The
external collaborators are parameters: `user` is the stored settings record
(`get_user`), `posterOracle` the poster-fetch collaborator `get_poster`.
`Except.error` models an uncaught exception inside `create_post`
(`IndexError` on an empty batch, `TypeError` in the season sub-header). -/
def create_post (user : Option UserRec)
    (posterOracle : List Char → Option (List Char) → Option (List Char))
    (bot_username : List Char) (messages : List MsgRec) :
    Except Unit (Option ComposedPost) :=
  match user with
  | none => Except.ok none
  | some u =>
    let items := messages.map fun m =>
      { details := extract_file_details m.file_name
        message_id := m.id
        file_unique_id := m.file_unique_id : PostItem }
    let sorted := insSort natKeyLe items
    match sorted with
    | [] => Except.error ()
    | base :: _ =>
      let title := base.details.title
      let year := base.details.year
      let seasons := seasonsInBatch sorted
      let multi := decide (1 < seasons.length)
      let is_series := sorted.any fun d => decide (d.details.type = MType.series)
      let header := postHeader title year is_series multi seasons
      let poster := if u.show_poster then posterOracle title year else none
      match buildLinks bot_username multi none sorted with
      | Except.error e => Except.error e
      | Except.ok chunks =>
        let links := (chunks.map renderChunk).flatten
        let caption := header ++ "\n\n".data ++ barLine ++ '\n' :: pyStrip links ++
          '\n' :: barLine
        let footer := if u.footer_buttons ≠ [] then some u.footer_buttons else none
        Except.ok (some { poster := poster, caption := caption, footer := footer })

/-! ### The batching state machine (bot.py 57-162)

A small-step model of the interleavings of the single
`file_processor_worker` task and the `process_batch_task` flush tasks for
one fixed `(user_id, batch_key)` pair. Under asyncio's cooperative
scheduling, code between two `await` points runs atomically; the model's
steps are exactly those atomic sections of bot.py that touch the pair's
entries in `self.file_batch` (the bucket) and `self.batch_locks` (the lock
entry), plus lock acquisitions:

  * `dispatch`: the worker reaches lines 80-87 for this pair — it ensures a
    lock entry exists (creating a fresh `asyncio.Lock` object when absent,
    lines 83-85) and starts awaiting that object's acquisition (line 87).
  * `workerAcquire`: the awaited lock object is free, so the worker runs
    the critical section 88-92 (which contains no `await`): first insert
    creates the bucket and spawns a flush task, later inserts append; the
    lock is released at the end of the same atomic section.
  * `flushGuard`: a flush task wakes from its `asyncio.sleep(10)` and runs
    line 104: when the pair's lock entry is gone it returns, running the
    `finally` cleanup of 155-162; otherwise it starts acquiring the object
    currently stored in the lock entry (line 105).
  * `flushAcquire`: that object is free; the flush pops the bucket
    (line 106) and, if messages were present, stays in its body (lines
    109-151, which do contain `await`s) holding the lock; an empty or
    missing bucket leads through release and cleanup.
  * `flushFinish`: the body ends (on any path, including caught
    exceptions), releasing the lock and running the cleanup 155-162.

The cleanup deletes the pair's lock entry whatever object it holds; the
bucket entry is never deleted by cleanup while non-empty (the `finally`
only deletes the per-user maps when they are empty), so the model's
cleanup leaves the bucket alone. Steps of other users or keys commute with
this pair's state, so one pair suffices for the per-pair claims. -/

/-- The worker's position relative to this pair. -/
inductive WorkerSt where
  | idle : WorkerSt
  | waiting : Nat → Nat → WorkerSt
deriving DecidableEq, Repr

/-- One flush task's position. -/
inductive FlushSt where
  | sleeping : FlushSt
  | acquiring : Nat → FlushSt
  | body : Nat → FlushSt
  | done : FlushSt
deriving DecidableEq, Repr

/-- The pair's shared state. `lockEntry` holds the identity of the
`asyncio.Lock` object currently stored under the pair (objects from
different epochs are distinct); `held` the identities of objects currently
locked; `spawnsSinceDrain` a ghost counter of flush tasks spawned since the
bucket was last drained. -/
structure BatchState where
  bucket : Option (List Nat)
  lockEntry : Option Nat
  held : List Nat
  nextLock : Nat
  worker : WorkerSt
  flushes : List FlushSt
  spawnsSinceDrain : Nat
deriving DecidableEq, Repr

/-- The state before any file for the pair arrived. -/
def initState : BatchState :=
  { bucket := none, lockEntry := none, held := [], nextLock := 0,
    worker := WorkerSt.idle, flushes := [], spawnsSinceDrain := 0 }

/-- The scheduler's choices. -/
inductive Act where
  | dispatch : Nat → Act
  | workerAcquire : Act
  | flushGuard : Nat → Act
  | flushAcquire : Nat → Act
  | flushFinish : Nat → Act
deriving DecidableEq, Repr

/-- The `finally` cleanup of bot.py 155-162 restricted to this pair:
delete the pair's lock entry when present. -/
def cleanup (s : BatchState) : BatchState := { s with lockEntry := none }

/-- One atomic step; `none` when the action is not enabled. -/
def step (s : BatchState) : Act → Option BatchState
  | Act.dispatch m =>
    match s.worker with
    | WorkerSt.idle =>
      match s.lockEntry with
      | some l => some { s with worker := WorkerSt.waiting l m }
      | none =>
        some { s with
          lockEntry := some s.nextLock
          nextLock := s.nextLock + 1
          worker := WorkerSt.waiting s.nextLock m }
    | _ => none
  | Act.workerAcquire =>
    match s.worker with
    | WorkerSt.waiting l m =>
      if l ∈ s.held then none
      else
        match s.bucket with
        | none =>
          some { s with
            bucket := some [m]
            flushes := s.flushes ++ [FlushSt.sleeping]
            spawnsSinceDrain := s.spawnsSinceDrain + 1
            worker := WorkerSt.idle }
        | some msgs => some { s with bucket := some (msgs ++ [m]), worker := WorkerSt.idle }
    | _ => none
  | Act.flushGuard i =>
    match s.flushes.get? i with
    | some FlushSt.sleeping =>
      match s.lockEntry with
      | none => some (cleanup { s with flushes := s.flushes.set i FlushSt.done })
      | some l => some { s with flushes := s.flushes.set i (FlushSt.acquiring l) }
    | _ => none
  | Act.flushAcquire i =>
    match s.flushes.get? i with
    | some (FlushSt.acquiring l) =>
      if l ∈ s.held then none
      else
        match s.bucket with
        | some (_ :: _) =>
          some { s with
            bucket := none
            spawnsSinceDrain := 0
            held := l :: s.held
            flushes := s.flushes.set i (FlushSt.body l) }
        | some [] =>
          some (cleanup { s with
            bucket := none
            spawnsSinceDrain := 0
            flushes := s.flushes.set i FlushSt.done })
        | none => some (cleanup { s with flushes := s.flushes.set i FlushSt.done })
    | _ => none
  | Act.flushFinish i =>
    match s.flushes.get? i with
    | some (FlushSt.body l) =>
      some (cleanup { s with held := s.held.erase l, flushes := s.flushes.set i FlushSt.done })
    | _ => none

/-- Execute a schedule from a state; `none` when a step is not enabled. -/
def run (s : BatchState) : List Act → Option BatchState
  | [] => some s
  | a :: as =>
    match step s a with
    | some s2 => run s2 as
    | none => none

/-! ### The worker's per-item behaviour (bot.py 61-98) -/

/-- Observable effects of one worker iteration. -/
inductive WEff where
  | sleepW : Nat → WEff
  | requeue : WEff
  | copyToDb : WEff
  | saveFileData : WEff
  | insertNewBucket : WEff
  | spawnFlush : WEff
  | appendBucket : WEff
  | sendUserMessage : WEff
deriving DecidableEq, Repr

/-- One iteration of `file_processor_worker` after dequeuing an item
(bot.py 66-94): `ownerDb` is the owner DB channel after the lines 68-69
lookup, `bucketExists` whether the pair's bucket already holds messages.
The worker consults no per-user configuration and sends no messages. -/
def worker_process_item (ownerDb : Option Int) (bucketExists : Bool) : List WEff :=
  match ownerDb with
  | none => [WEff.sleepW 60, WEff.requeue]
  | some _ =>
    [WEff.copyToDb, WEff.saveFileData] ++
      (if bucketExists then [WEff.appendBucket]
       else [WEff.insertNewBucket, WEff.spawnFlush]) ++ [WEff.sleepW 2]

/-! ### The publish loop (bot.py 109-151) -/

/-- The outcome the messaging platform gives one send attempt. -/
inductive Outcome where
  | ok : Outcome
  | flood : Nat → Outcome
  | perm : Outcome
  | webfail : Outcome
  | err : Outcome
deriving DecidableEq, Repr

/-- Which send primitive was used. -/
inductive SndKind where
  | photo : SndKind
  | text : SndKind
deriving DecidableEq, Repr

/-- Observable effects of the publish loop. -/
inductive PEff where
  | send : Int → Nat → SndKind → PEff
  | sleepP : Nat → PEff
  | removeChannel : Int → PEff
  | notifyPermRemoved : Int → PEff
  | notifyErr : Int → PEff
deriving DecidableEq, Repr

/-- The `for channel_id in user.get('post_channels', []).copy()` loop of
bot.py 116-151. `o ch a` is the platform's outcome for attempt `a` at
channel `ch`; `notifyOk ch` whether the direct message to the owner after a
permission failure at `ch` goes through. The returned flag is `false` when
an exception escaped the loop (ending the `try` of line 102 early), in
which case the remaining channels are never attempted:

  * ok: send, then `asyncio.sleep(3)`, next channel;
  * perm (`ChannelPrivate`/`ChatAdminRequired`/`UserNotParticipant`):
    `remove_from_list` then a notification to the owner; a failing
    notification is itself an uncaught exception inside the handler;
  * webfail (`WebpageCurlFailed`/`WebpageMediaEmpty`): resend text-only; a
    failure of the resend escapes;
  * flood (`FloodWait w`): sleep `w`, then retry once — with `send_photo`
    whatever the first send was; a failing retry escapes;
  * err (any other exception): notify the owner (failures of that
    notification are swallowed by the nested `try` of 147-151), continue. -/
def publish_loop (o : Int → Nat → Outcome) (notifyOk : Int → Bool) (hasPoster : Bool) :
    List Int → List PEff × Bool
  | [] => ([], true)
  | ch :: rest =>
    let k := if hasPoster then SndKind.photo else SndKind.text
    match o ch 1 with
    | Outcome.ok =>
      let r := publish_loop o notifyOk hasPoster rest
      (PEff.send ch 1 k :: PEff.sleepP 3 :: r.1, r.2)
    | Outcome.perm =>
      if notifyOk ch then
        let r := publish_loop o notifyOk hasPoster rest
        (PEff.send ch 1 k :: PEff.removeChannel ch :: PEff.notifyPermRemoved ch :: r.1, r.2)
      else ([PEff.send ch 1 k, PEff.removeChannel ch], false)
    | Outcome.webfail =>
      match o ch 2 with
      | Outcome.ok =>
        let r := publish_loop o notifyOk hasPoster rest
        (PEff.send ch 1 k :: PEff.send ch 2 SndKind.text :: r.1, r.2)
      | _ => ([PEff.send ch 1 k, PEff.send ch 2 SndKind.text], false)
    | Outcome.flood w =>
      match o ch 2 with
      | Outcome.ok =>
        let r := publish_loop o notifyOk hasPoster rest
        (PEff.send ch 1 k :: PEff.sleepP w :: PEff.send ch 2 SndKind.photo :: r.1, r.2)
      | _ => ([PEff.send ch 1 k, PEff.sleepP w, PEff.send ch 2 SndKind.photo], false)
    | Outcome.err =>
      let r := publish_loop o notifyOk hasPoster rest
      (PEff.send ch 1 k :: PEff.notifyErr ch :: r.1, r.2)

/-- The body of `process_batch_task` after the bucket was drained with a
non-empty message list (bot.py 109-151): the `get_user` gate of line 110,
composition, the caption gate of line 113, then the publish loop. The flag
is `false` when an exception was caught by line 153 (cutting the loop
short); the `finally` cleanup runs in every case. -/
def process_batch_publish (user : Option UserRec)
    (posterOracle : List Char → Option (List Char) → Option (List Char))
    (bot_username : List Char) (messages : List MsgRec)
    (o : Int → Nat → Outcome) (notifyOk : Int → Bool) : List PEff × Bool :=
  match user with
  | none => ([], true)
  | some u =>
    if u.post_channels = [] then ([], true)
    else
      match create_post (some u) posterOracle bot_username messages with
      | Except.error _ => ([], false)
      | Except.ok none => ([], true)
      | Except.ok (some p) => publish_loop o notifyOk p.poster.isSome u.post_channels

/-- Chars that no uppercase letter folds onto and that fold to themselves
under ASCII case folding (used to show the pipeline stages commute with
case folding). -/
def stableCh (d : Char) : Prop :=
  ¬(65 ≤ d.toNat ∧ d.toNat ≤ 90) ∧ ¬(97 ≤ d.toNat ∧ d.toNat ≤ 122)

/-! ### Observation helpers and concrete fixtures used by the claims -/

/-- Does `pat` occur at the head of `s`, i.e. is it a literal prefix? This
and `occCount` observe captions. -/
def containsSub (pat : List Char) : List Char → Bool
  | [] => litPre pat []
  | c :: cs => litPre pat (c :: cs) || containsSub pat cs

/-- The number of positions of `s` at which `pat` occurs. -/
def occCount (pat : List Char) : List Char → Nat
  | [] => if litPre pat [] then 1 else 0
  | c :: cs => (if litPre pat (c :: cs) then 1 else 0) + occCount pat cs

/-- Is a chunk a link line (as opposed to a season sub-header)? -/
def isLinkChunk : Chunk → Bool
  | Chunk.link _ _ => true
  | _ => false

/-- The caption of a successful composition (`[]` otherwise). -/
def captionOfD : Except Unit (Option ComposedPost) → List Char
  | Except.ok (some p) => p.caption
  | _ => []

/-- Did `create_post` return without raising? -/
def isOkB : Except Unit (Option ComposedPost) → Bool
  | Except.ok _ => true
  | Except.error _ => false

/-- Scans a season list for a `none` entry strictly after some `some`
entry (`seen` records whether a `some` was already passed): the exact
condition under which the season sub-header formatting raises. -/
def noneAfterSome (seen : Bool) : List (Option Nat) → Bool
  | [] => false
  | none :: r => if seen then true else noneAfterSome seen r
  | some _ :: r => noneAfterSome true r

/-- A user with one post channel, no footer and posters disabled. -/
def user0 : UserRec := { post_channels := [1], footer_buttons := [], show_poster := false }

/-- A poster collaborator that finds nothing. -/
def noPoster : List Char → Option (List Char) → Option (List Char) := fun _ _ => none

/-- The spec's three-resolutions scenario batch. -/
def msgs3 : List MsgRec :=
  [{ id := 100, file_unique_id := "u0".data, file_name := "Movie.Name.2021.720p.mkv".data },
   { id := 101, file_unique_id := "u1".data, file_name := "Movie.Name.2021.1080p.mkv".data },
   { id := 102, file_unique_id := "u2".data, file_name := "Movie.Name.2021.480p.mkv".data }]

/-- Two files of the same movie and the same resolution: both classify to
the link label `720P`. -/
def msgsDup : List MsgRec :=
  [{ id := 100, file_unique_id := "u0".data, file_name := "Movie.Name.2021.720p.mkv".data },
   { id := 101, file_unique_id := "u1".data, file_name := "Movie.Name.2021.720p.HEVC.mkv".data }]

/-- A multi-season batch whose season-less file sorts first. -/
def msgsMS : List MsgRec :=
  [{ id := 100, file_unique_id := "u0".data, file_name := "AAA.mkv".data },
   { id := 101, file_unique_id := "u1".data, file_name := "S01E01.mkv".data },
   { id := 102, file_unique_id := "u2".data, file_name := "S02E01.mkv".data }]

/-- The `all_details` items a batch of messages produces. -/
def itemsOf (msgs : List MsgRec) : List PostItem :=
  msgs.map fun m =>
    { details := extract_file_details m.file_name
      message_id := m.id
      file_unique_id := m.file_unique_id }

/-- The filenames of the C9 counterexample differ only in the choice of
separator: mapping every separator to a space and case-folding makes them
equal. -/
def sepFold (s : List Char) : List Char :=
  nf (s.map fun c => if c = '.' ∨ c = '_' then ' ' else c)

/-- The interleaving that leaks a bucket: file 1 arrives and its flush
drains it and begins publishing (holding the lock); file 2 arrives while
the lock is held, so the worker blocks on the same lock object; the flush
finishes, and its cleanup deletes the pair's lock entry; the worker then
acquires the (still live) lock object, creates a fresh bucket for file 2
and spawns a second flush; that flush's guard (bot.py 104) finds no lock
entry and returns without draining. -/
def leakTrace : List Act :=
  [Act.dispatch 1, Act.workerAcquire, Act.flushGuard 0, Act.flushAcquire 0,
   Act.dispatch 2, Act.flushFinish 0, Act.workerAcquire, Act.flushGuard 1]

/-- The oracle of the C5 counterexample: channel 10 rate-limits the first
send with wait 5 and the retry with wait 7; channel 20 would succeed. -/
def floodTwiceOracle : Int → Nat → Outcome := fun ch a =>
  if ch = 10 then (if a = 1 then Outcome.flood 5 else Outcome.flood 7) else Outcome.ok

/-! ### Invariants and theorems -/

/-- The inductive invariant of the batching machine: the ghost spawn
counter mirrors the presence of the bucket, and buckets are never empty. -/
def batchInvar (s : BatchState) : Prop :=
  s.spawnsSinceDrain = (if s.bucket.isSome then 1 else 0) ∧
    ∀ l, s.bucket = some l → l ≠ []

theorem batchInvar_init : batchInvar initState := by
  constructor
  · rfl
  · intro l h
    simp [initState] at h

theorem batchInvar_step {s s2 : BatchState} {a : Act} (h : step s a = some s2)
    (hi : batchInvar s) : batchInvar s2 := by
  obtain ⟨h1, h2⟩ := hi
  unfold batchInvar
  cases a <;> unfold step at h <;> (repeat' split at h) <;>
    (try exact Option.noConfusion h) <;>
    (injection h with h3) <;> subst h3 <;>
    refine ⟨?_, ?_⟩ <;> simp_all [cleanup]

theorem run_batchInvar : ∀ (acts : List Act) (s0 s : BatchState), batchInvar s0 →
    run s0 acts = some s → batchInvar s := by
  intro acts
  induction acts with
  | nil => intro s0 s h0 h; unfold run at h; injection h with h2; subst h2; exact h0
  | cons a as ih =>
    intro s0 s h0 h
    unfold run at h
    split at h
    · next s1 hs1 => exact ih s1 s (batchInvar_step hs1 h0) h
    · exact absurd h (by simp)

/-- C1: over every interleaving of worker inserts and flush steps, at most
one flush task is spawned per (owner_user_id, BatchKey) pair between the
first insert for the key and the moment its flush drains the bucket: the
ghost counter of flush tasks spawned since the last drain never exceeds
one in any reachable state — the first inserter (finding no bucket)
creates the bucket and spawns the task, subsequent inserters append. -/
theorem C1_at_most_one_flush_per_drain (acts : List Act) (s : BatchState)
    (h : run initState acts = some s) : s.spawnsSinceDrain ≤ 1 := by
  have hi := run_batchInvar acts initState s batchInvar_init h
  rw [hi.1]
  cases s.bucket <;> simp

/-- Witness for C1 at a concrete schedule: two inserts for the same key
followed by the flush draining them spawn one task. -/
theorem C1_witness :
    ((run initState [Act.dispatch 1, Act.workerAcquire, Act.dispatch 2, Act.workerAcquire,
      Act.flushGuard 0, Act.flushAcquire 0, Act.flushFinish 0]).getD initState).spawnsSinceDrain
      ≤ 1 :=
  C1_at_most_one_flush_per_drain
    [Act.dispatch 1, Act.workerAcquire, Act.dispatch 2, Act.workerAcquire,
      Act.flushGuard 0, Act.flushAcquire 0, Act.flushFinish 0]
    ((run initState [Act.dispatch 1, Act.workerAcquire, Act.dispatch 2, Act.workerAcquire,
      Act.flushGuard 0, Act.flushAcquire 0, Act.flushFinish 0]).getD initState) (by rfl)

/-- C2 (code bug exhibit): after `leakTrace`, both flush tasks have
completed, yet the pair's bucket entry still holds file 2 — `file_batch`
retains a stale, never-drained entry with no flush task left, contradicting
the no-leak guarantee. The lock table is empty, so a later insert for the
same key would append to the stale bucket without spawning a flush. -/
theorem C2_stale_bucket_after_flush :
    run initState leakTrace = some
      { bucket := some [2], lockEntry := none, held := [], nextLock := 1,
        worker := WorkerSt.idle, flushes := [FlushSt.done, FlushSt.done],
        spawnsSinceDrain := 1 } := by
  decide

/-- C4 counterexample: the worker, handed an item whose owner has not
completed setup (no check of the user's record happens at all in bot.py
66-94), sends no message and does not discard the item — it copies,
persists and batches it. -/
theorem C4_counterexample :
    worker_process_item (some 7) false =
      [WEff.copyToDb, WEff.saveFileData, WEff.insertNewBucket, WEff.spawnFlush,
       WEff.sleepW 2] ∧
    WEff.sendUserMessage ∉ worker_process_item (some 7) false ∧
    WEff.requeue ∉ worker_process_item (some 7) false := by
  decide

/-- C4 (amended): the worker consults no per-user configuration — once the
owner DB is known it copies, persists and batches every dequeued item,
sending no guidance message and never requeueing it; the missing-setup
check happens only at flush time, where a missing user record or an empty
post-channel list makes the flush return silently (no posts, no message to
the user). -/
theorem C4_amended (db : Int) (b : Bool) (user : Option UserRec)
    (pOracle : List Char → Option (List Char) → Option (List Char))
    (bu : List Char) (msgs : List MsgRec) (o : Int → Nat → Outcome)
    (nOk : Int → Bool)
    (hu : user = none ∨ ∃ u, user = some u ∧ u.post_channels = []) :
    WEff.sendUserMessage ∉ worker_process_item (some db) b ∧
    WEff.requeue ∉ worker_process_item (some db) b ∧
    (if b then WEff.appendBucket ∈ worker_process_item (some db) b
     else WEff.insertNewBucket ∈ worker_process_item (some db) b) ∧
    process_batch_publish user pOracle bu msgs o nOk = ([], true) := by
  refine ⟨?_, ?_, ?_, ?_⟩
  · cases b <;> simp [worker_process_item]
  · cases b <;> simp [worker_process_item]
  · cases b <;> simp [worker_process_item]
  · rcases hu with h | ⟨u, hu, hc⟩
    · subst h; rfl
    · subst hu; simp [process_batch_publish, hc]

/-- Witness for C4 (amended) at a user with no post channels. -/
theorem C4_amended_witness :
    WEff.sendUserMessage ∉ worker_process_item (some 7) false ∧
    WEff.requeue ∉ worker_process_item (some 7) false ∧
    (if false then WEff.appendBucket ∈ worker_process_item (some 7) false
     else WEff.insertNewBucket ∈ worker_process_item (some 7) false) ∧
    process_batch_publish
      (some { post_channels := [], footer_buttons := [], show_poster := true })
      (fun _ _ => none) "mybot".data [] (fun _ _ => Outcome.ok) (fun _ => true) =
      ([], true) :=
  C4_amended 7 false _ _ _ _ _ _
    (Or.inr ⟨{ post_channels := [], footer_buttons := [], show_poster := true }, rfl, rfl⟩)

/-- The all-ok behaviour of the tail of the loop: every channel receives
its send, followed by the inter-send delay. -/
theorem publish_loop_all_ok (o : Int → Nat → Outcome) (nOk : Int → Bool) (hp : Bool)
    (l : List Int) (h : ∀ c ∈ l, o c 1 = Outcome.ok) :
    publish_loop o nOk hp l =
      ((l.map fun c =>
        [PEff.send c 1 (if hp then SndKind.photo else SndKind.text), PEff.sleepP 3]).flatten,
        true) := by
  induction l with
  | nil => rfl
  | cons c rest ih =>
    have hc : o c 1 = Outcome.ok := h c (by simp)
    have hr := ih fun x hx => h x (by simp [hx])
    simp [publish_loop, hc, hr]

/-- C6: when the first send to a channel raises a permission or membership
error (`ChannelPrivate`, `ChatAdminRequired`, `UserNotParticipant`) and the
notification to the owner goes through, the loop removes that channel from
the persisted post-channel list, notifies the owner, never retries that
channel, does not let the error escape the loop, and still delivers to
every remaining channel (here: all of whose sends succeed). -/
theorem C6_permission_error_contained (o : Int → Nat → Outcome) (nOk : Int → Bool)
    (hp : Bool) (ch : Int) (rest : List Int)
    (h1 : o ch 1 = Outcome.perm) (h2 : nOk ch = true)
    (h3 : ∀ c ∈ rest, o c 1 = Outcome.ok) :
    publish_loop o nOk hp (ch :: rest) =
      (PEff.send ch 1 (if hp then SndKind.photo else SndKind.text) ::
        PEff.removeChannel ch :: PEff.notifyPermRemoved ch ::
        (rest.map fun c =>
          [PEff.send c 1 (if hp then SndKind.photo else SndKind.text),
           PEff.sleepP 3]).flatten, true) ∧
    (∀ k2 : SndKind, PEff.send ch 2 k2 ∉ (publish_loop o nOk hp (ch :: rest)).1) := by
  have hmain : publish_loop o nOk hp (ch :: rest) =
      (PEff.send ch 1 (if hp then SndKind.photo else SndKind.text) ::
        PEff.removeChannel ch :: PEff.notifyPermRemoved ch ::
        (rest.map fun c =>
          [PEff.send c 1 (if hp then SndKind.photo else SndKind.text),
           PEff.sleepP 3]).flatten, true) := by
    simp [publish_loop, h1, h2, publish_loop_all_ok o nOk hp rest h3]
  refine ⟨hmain, ?_⟩
  intro k2
  rw [hmain]
  simp only [List.mem_cons, List.mem_flatten, List.mem_map]
  rintro (h | h | h | ⟨l, ⟨c, hc, rfl⟩, hl⟩)
  · cases h
  · cases h
  · cases h
  · simp at hl

/-- Witness for C6 at a concrete oracle: channel 10 loses permission,
channels 20 and 30 still receive the post. -/
theorem C6_witness :
    publish_loop
        (fun ch _ => if ch = 10 then Outcome.perm else Outcome.ok)
        (fun _ => true) true [10, 20, 30] =
      (PEff.send 10 1 (if true then SndKind.photo else SndKind.text) ::
        PEff.removeChannel 10 :: PEff.notifyPermRemoved 10 ::
        ([20, 30].map fun c =>
          [PEff.send c 1 (if true then SndKind.photo else SndKind.text),
           PEff.sleepP 3]).flatten, true) ∧
    (∀ k2 : SndKind, PEff.send 10 2 k2 ∉
      (publish_loop (fun ch _ => if ch = 10 then Outcome.perm else Outcome.ok)
        (fun _ => true) true [10, 20, 30]).1) :=
  C6_permission_error_contained
    (fun ch _ => if ch = 10 then Outcome.perm else Outcome.ok)
    (fun _ => true) true 10 [20, 30] (by decide) (by decide)
    (by intro c hc; fin_cases hc <;> decide)

/-- C5 counterexample: when the retry raises a rate-limit signal again, it
is not handled by the generic-error path — the exception escapes the
publish loop: the owner is never notified and the remaining channel 20 is
never attempted, against the claim that the loop notifies the user and
moves on to the remaining channels. -/
theorem C5_counterexample :
    publish_loop floodTwiceOracle (fun _ => true) true [10, 20] =
      ([PEff.send 10 1 SndKind.photo, PEff.sleepP 5, PEff.send 10 2 SndKind.photo],
        false) ∧
    PEff.notifyErr 10 ∉ (publish_loop floodTwiceOracle (fun _ => true) true [10, 20]).1 ∧
    PEff.send 20 1 SndKind.photo ∉
      (publish_loop floodTwiceOracle (fun _ => true) true [10, 20]).1 ∧
    PEff.send 20 1 SndKind.text ∉
      (publish_loop floodTwiceOracle (fun _ => true) true [10, 20]).1 := by
  decide

/-- C5 (amended): a rate-limit signal with wait `w` on the first send makes
the loop sleep `w` and retry the same channel exactly once (always through
`send_photo`, whatever the first send used); when the retry succeeds the
loop continues with the remaining channels, but when the retry fails —
with a rate-limit signal or anything else — the exception escapes the
publish loop: no notification is sent and the remaining channels are
skipped (the batch task proceeds to its cleanup). -/
theorem C5_amended (o : Int → Nat → Outcome) (nOk : Int → Bool) (hp : Bool)
    (ch : Int) (rest : List Int) (w : Nat) (h : o ch 1 = Outcome.flood w) :
    publish_loop o nOk hp (ch :: rest) =
      (if o ch 2 = Outcome.ok then
        (PEff.send ch 1 (if hp then SndKind.photo else SndKind.text) ::
          PEff.sleepP w :: PEff.send ch 2 SndKind.photo ::
          (publish_loop o nOk hp rest).1, (publish_loop o nOk hp rest).2)
      else
        ([PEff.send ch 1 (if hp then SndKind.photo else SndKind.text),
          PEff.sleepP w, PEff.send ch 2 SndKind.photo], false)) := by
  cases h2 : o ch 2 <;> simp [publish_loop, h, h2]

/-- Witness for C5 (amended): wait 5 then a successful retry, after which
channel 20 is still served. -/
theorem C5_amended_witness :
    publish_loop (fun ch a => if ch = 10 ∧ a = 1 then Outcome.flood 5 else Outcome.ok)
        (fun _ => true) true [10, 20] =
      (if (fun (ch : Int) (a : Nat) => if ch = 10 ∧ a = 1 then Outcome.flood 5 else Outcome.ok)
            10 2 = Outcome.ok then
        (PEff.send 10 1 (if true then SndKind.photo else SndKind.text) ::
          PEff.sleepP 5 :: PEff.send 10 2 SndKind.photo ::
          (publish_loop (fun ch a => if ch = 10 ∧ a = 1 then Outcome.flood 5 else Outcome.ok)
            (fun _ => true) true [20]).1,
          (publish_loop (fun ch a => if ch = 10 ∧ a = 1 then Outcome.flood 5 else Outcome.ok)
            (fun _ => true) true [20]).2)
      else
        ([PEff.send 10 1 (if true then SndKind.photo else SndKind.text),
          PEff.sleepP 5, PEff.send 10 2 SndKind.photo], false)) :=
  C5_amended (fun ch a => if ch = 10 ∧ a = 1 then Outcome.flood 5 else Outcome.ok)
    (fun _ => true) true 10 [20] 5 (by decide)

/-! ### The batch key claims -/

/-- The title field of the classifier, unfolded: the stripped, whitespace-
collapsed name, or the stem of the filename when that is empty. -/
theorem extract_title_eq (f : List Char) :
    (extract_file_details f).title =
      if (collapseWs (stripTags (cleanedNoYear f))).isEmpty then pyStem f
      else collapseWs (stripTags (cleanedNoYear f)) := by
  simp only [extract_file_details]

/-- The year field of the classifier, unfolded. -/
theorem extract_year_eq (f : List Char) :
    (extract_file_details f).year = yearSearch (nf (cleanedName f)) := by
  simp only [extract_file_details]

/-- C3 (amended): the batch key is the case-folded concatenation of the
classified clean title, an underscore, and the extracted year token — but
when classification finds no year, the year segment is the text `none`
(Python renders the `None` object into the f-string and lowercases it),
not `0000`. -/
theorem C3_key_is_lower_title_year (f : List Char) :
    (∀ y, (extract_file_details f).year = some y →
      get_batch_key f = nf ((extract_file_details f).title ++ '_' :: y)) ∧
    ((extract_file_details f).year = none →
      get_batch_key f = nf (extract_file_details f).title ++ "_none".data) := by
  have hk : get_batch_key f =
      nf ((extract_file_details f).title ++ '_' :: yearRepr (extract_file_details f).year) := by
    cases h : (extract_file_details f).type <;> simp [get_batch_key, h]
  constructor
  · intro y hy
    rw [hk, hy]
    rfl
  · intro hy
    rw [hk, hy]
    show List.map lowerCh ((extract_file_details f).title ++ '_' :: "None".data) = _
    rw [List.map_append]
    rfl

/-- Witness for C3 (amended) at a filename with a year. -/
theorem C3_witness :
    get_batch_key "Show.Name.2020.S01E01.mkv".data =
      nf ((extract_file_details "Show.Name.2020.S01E01.mkv".data).title ++
        '_' :: "2020".data) :=
  (C3_key_is_lower_title_year "Show.Name.2020.S01E01.mkv".data).1 "2020".data (by rfl)

/-- C3 counterexample: a filename without a year gets the key segment
`none`, not `0000`. -/
theorem C3_counterexample :
    get_batch_key "abcd.mkv".data = "abcd_none".data ∧
    (extract_file_details "abcd.mkv".data).year = none ∧
    get_batch_key "abcd.mkv".data ≠ nf ("abcd".data ++ '_' :: "0000".data) := by
  refine ⟨by rfl, by rfl, by decide⟩

/-- C8 counterexample: the non-empty filename `.mkv` classifies to an empty
clean title — every extraction fails and the fallback `rsplit('.', 1)[0]`
is itself empty. -/
theorem C8_counterexample :
    ".mkv".data ≠ [] ∧ (extract_file_details ".mkv".data).title = [] := by
  exact ⟨by decide, by rfl⟩

/-- C8 (amended): the classifier is total (it is a Lean function), and the
clean title is non-empty whenever the part of the filename before its last
dot is non-empty — the only empty titles come from filenames like `.mkv`
whose stem fallback is empty. -/
theorem C8_title_nonempty (f : List Char) (h : pyStem f ≠ []) :
    (extract_file_details f).title ≠ [] := by
  rw [extract_title_eq]
  split
  · exact h
  · next hne =>
    intro hx
    rw [hx] at hne
    exact hne rfl

/-- Witness for C8 (amended). -/
theorem C8_witness : (extract_file_details "a.mkv".data).title ≠ [] :=
  C8_title_nonempty "a.mkv".data (by decide)

/-! ### Post composer claims -/

/-- A literal prefix of `a` is a literal prefix of `a ++ b`. -/
theorem litPre_append (p a b : List Char) (h : litPre p a = true) :
    litPre p (a ++ b) = true := by
  induction p generalizing a with
  | nil => rfl
  | cons x xs ih =>
    cases a with
    | nil => exact absurd h (by simp [litPre])
    | cons c cs =>
      simp only [litPre, Bool.and_eq_true, decide_eq_true_eq] at h ⊢
      exact ⟨h.1, ih cs h.2⟩

/-- An occurrence inside `a` stays an occurrence inside `a ++ b`. -/
theorem containsSub_append_left (p a b : List Char) (h : containsSub p a = true) :
    containsSub p (a ++ b) = true := by
  induction a with
  | nil =>
    simp only [containsSub] at h
    have hp : p = [] := by
      cases p with
      | nil => rfl
      | cons x xs => exact absurd h (by simp [litPre])
    subst hp
    cases b <;> simp [containsSub, litPre]
  | cons c cs ih =>
    simp only [containsSub, Bool.or_eq_true] at h ⊢
    rcases h with h | h
    · exact Or.inl (litPre_append p (c :: cs) b h)
    · exact Or.inr (ih h)

/-- Each item of the batch contributes exactly one link chunk. -/
theorem buildLinks_link_count (u : List Char) (multi : Bool) :
    ∀ (ds : List PostItem) (last : Option Nat) (cs : List Chunk),
      buildLinks u multi last ds = Except.ok cs →
      (cs.filter isLinkChunk).length = ds.length := by
  intro ds
  induction ds with
  | nil =>
    intro last cs h
    injection h with h2
    subst h2
    rfl
  | cons d rest ih =>
    intro last cs h
    simp only [buildLinks] at h
    split at h
    · split at h
      · exact Except.noConfusion h
      · split at h
        · next cs2 heq =>
          injection h with h2
          subst h2
          have hcount := ih _ _ heq
          simp [List.filter, isLinkChunk, hcount]
        · exact Except.noConfusion h
    · split at h
      · next cs2 heq =>
        injection h with h2
        subst h2
        have hcount := ih _ _ heq
        simp [List.filter, isLinkChunk, hcount]
      · exact Except.noConfusion h

/-- C7 (amended): the composer does not deduplicate: every file of the
batch contributes exactly one link line even when several files map to the
same label — no last-write-wins overwriting happens; in the spec's
three-resolution scenario, the single composed caption carries exactly
three links keyed by resolution, one per file, with no duplicates. -/
theorem C7_one_link_per_file (u : List Char) (multi : Bool) (last : Option Nat)
    (ds : List PostItem) (cs : List Chunk)
    (h : buildLinks u multi last ds = Except.ok cs) :
    (cs.filter isLinkChunk).length = ds.length ∧
    occCount "📤 **480P**".data
      (captionOfD (create_post (some user0) noPoster "mybot".data msgs3)) = 1 ∧
    occCount "📤 **720P**".data
      (captionOfD (create_post (some user0) noPoster "mybot".data msgs3)) = 1 ∧
    occCount "📤 **1080P**".data
      (captionOfD (create_post (some user0) noPoster "mybot".data msgs3)) = 1 ∧
    isOkB (create_post (some user0) noPoster "mybot".data msgs3) = true := by
  refine ⟨buildLinks_link_count u multi ds last cs h, by decide, by decide, by decide,
    by decide⟩

/-- Witness for C7 (amended) at the empty batch prefix. -/
theorem C7_witness :
    (([] : List Chunk).filter isLinkChunk).length = ([] : List PostItem).length ∧
    occCount "📤 **480P**".data
      (captionOfD (create_post (some user0) noPoster "mybot".data msgs3)) = 1 ∧
    occCount "📤 **720P**".data
      (captionOfD (create_post (some user0) noPoster "mybot".data msgs3)) = 1 ∧
    occCount "📤 **1080P**".data
      (captionOfD (create_post (some user0) noPoster "mybot".data msgs3)) = 1 ∧
    isOkB (create_post (some user0) noPoster "mybot".data msgs3) = true :=
  C7_one_link_per_file "mybot".data false none [] [] (by rfl)

/-- C7 counterexample: two files with the same label key `720P` both keep
their link lines — the caption holds two links with that label (not at
most one), and both files' deep links appear (the earlier one is not
overwritten). -/
theorem C7_counterexample :
    occCount "📤 **720P**".data
      (captionOfD (create_post (some user0) noPoster "mybot".data msgsDup)) = 2 ∧
    occCount "?start=get_u0".data
      (captionOfD (create_post (some user0) noPoster "mybot".data msgsDup)) = 1 ∧
    occCount "?start=get_u1".data
      (captionOfD (create_post (some user0) noPoster "mybot".data msgsDup)) = 1 := by
  refine ⟨by decide, by decide, by decide⟩

/-- In a multi-season composition, the links fold raises exactly when a
season-less file follows some seasoned file in the sorted order. -/
theorem buildLinks_error_iff (u : List Char) :
    ∀ (ds : List PostItem) (last : Option Nat),
      (buildLinks u true last ds = Except.error ()) ↔
        noneAfterSome last.isSome (ds.map fun d => d.details.season) = true := by
  intro ds
  induction ds with
  | nil => intro last; simp [buildLinks, noneAfterSome]
  | cons d rest ih =>
    intro last
    simp only [buildLinks, List.map]
    by_cases hc : d.details.season ≠ last
    · rw [if_pos (And.intro trivial hc)]
      cases hs : d.details.season with
      | none =>
        have hl : last.isSome = true := by
          have hne := hc
          rw [hs] at hne
          cases last with
          | none => exact absurd rfl hne
          | some _ => rfl
        simp [hs, noneAfterSome, hl]
      | some sv =>
        cases hr : buildLinks u true (some sv) rest with
        | error e =>
          cases e
          have h2 := (ih (some sv)).mp hr
          simp only [Option.isSome] at h2
          simp [hr, noneAfterSome, h2]
        | ok cs2 =>
          have h2 : ¬ noneAfterSome true (rest.map fun d => d.details.season) = true := by
            intro hh
            have h3 := (ih (some sv)).mpr (by simpa using hh)
            rw [h3] at hr
            exact Except.noConfusion hr
          simp only [noneAfterSome]
          simp [hr, h2]
    · rw [if_neg (fun hh => hc hh.2)]
      have hle : d.details.season = last := by
        by_contra hne
        exact hc hne
      cases hr : buildLinks u true last rest with
      | error e =>
        cases e
        have h2 := (ih last).mp hr
        cases hs : d.details.season with
        | none =>
          rw [hs] at hle
          subst hle
          simp only [Option.isSome] at h2 ⊢
          simp [hr, noneAfterSome, h2]
        | some sv =>
          rw [hs] at hle
          subst hle
          simp only [Option.isSome] at h2 ⊢
          simp [hr, noneAfterSome, h2]
      | ok cs2 =>
        have h2 : ¬ noneAfterSome last.isSome (rest.map fun d => d.details.season) = true := by
          intro hh
          have h3 := (ih last).mpr hh
          rw [h3] at hr
          exact Except.noConfusion hr
        cases hs : d.details.season with
        | none =>
          rw [hs] at hle
          subst hle
          simp only [noneAfterSome, Option.isSome] at h2 ⊢
          simp [hr, noneAfterSome]
          simpa using h2
        | some sv =>
          rw [hs] at hle
          subst hle
          simp only [Option.isSome] at h2 ⊢
          simp [hr, noneAfterSome, h2]

/-- C10 (amended): every season sub-header of a multi-season composition is
the fixed text `\n**Mirzapur S<season>**\n` — it contains the literal
`Mirzapur` whatever the batch's own title, with the season in two-digit
format — and composition raises exactly when, in natural-sort order, a
file without a season value follows a file with one (a season-less file
that sorts first does not raise). -/
theorem C10_mirzapur_and_raise_condition :
    (∀ s : Nat, renderChunk (Chunk.seasonHeader s) =
        "\n**Mirzapur S".data ++ pad2 s ++ "**\n".data ∧
      containsSub "Mirzapur".data (renderChunk (Chunk.seasonHeader s)) = true) ∧
    (∀ (u : List Char) (ds : List PostItem) (last : Option Nat),
      (buildLinks u true last ds = Except.error ()) ↔
        noneAfterSome last.isSome (ds.map fun d => d.details.season) = true) := by
  constructor
  · intro s
    refine ⟨rfl, ?_⟩
    have h1 : containsSub "Mirzapur".data "\n**Mirzapur S".data = true := by decide
    exact containsSub_append_left _ _ _
      (containsSub_append_left _ _ _ h1)
  · intro u ds last
    exact buildLinks_error_iff u ds last

/-- C10 counterexample: `msgsMS` is a multi-season batch (seasons 1 and 2)
containing a file with no season value, yet composition does not raise —
the season-less file sorts first, where `None != last_season` is false. -/
theorem C10_counterexample :
    1 < (seasonsInBatch (itemsOf msgsMS)).length ∧
    (extract_file_details "AAA.mkv".data).season = none ∧
    isOkB (create_post (some user0) noPoster "mybot".data msgsMS) = true := by
  refine ⟨by decide, by rfl, by decide⟩

/-! ### Case stability of the classifier pipeline (for the batch key claims)

Python's `str.lower` and the `re.IGNORECASE` scanners interact with every
stage of `extract_file_details`; the lemmas below show each stage commutes
with case folding, giving the case-insensitivity of `get_batch_key`. -/

theorem toNat_lowerCh (c : Char) :
    (lowerCh c).toNat = if 65 ≤ c.toNat ∧ c.toNat ≤ 90 then c.toNat + 32 else c.toNat := by
  unfold lowerCh
  split
  · next h =>
    have hv : (c.toNat + 32).isValidChar := by
      constructor
      omega
    rw [Char.ofNat, dif_pos hv]
    rfl
  · rfl

theorem char_toNat_inj {a b : Char} (h : a.toNat = b.toNat) : a = b := by
  apply Char.ext
  apply UInt32.eq_of_toBitVec_eq
  apply BitVec.eq_of_toNat_eq
  exact h

theorem char_eq_iff_toNat {a b : Char} : a = b ↔ a.toNat = b.toNat :=
  ⟨fun h => by rw [h], char_toNat_inj⟩

theorem lowerCh_idem (c : Char) : lowerCh (lowerCh c) = lowerCh c := by
  apply char_toNat_inj
  simp only [toNat_lowerCh]
  split_ifs <;> omega

theorem lowerCh_eq_lit {d : Char} (h1 : ¬(65 ≤ d.toNat ∧ d.toNat ≤ 90))
    (h2 : ¬(97 ≤ d.toNat ∧ d.toNat ≤ 122)) (c : Char) : lowerCh c = d ↔ c = d := by
  rw [char_eq_iff_toNat, char_eq_iff_toNat, toNat_lowerCh]
  split_ifs <;> omega

theorem isWordCh_lowerCh (c : Char) : isWordCh (lowerCh c) = isWordCh c := by
  simp only [isWordCh, toNat_lowerCh]
  split
  · rw [decide_eq_decide]
    omega
  · rfl

theorem isSpaceCh_lowerCh (c : Char) : isSpaceCh (lowerCh c) = isSpaceCh c := by
  simp only [isSpaceCh, toNat_lowerCh]
  split
  · rw [decide_eq_decide]
    omega
  · rfl

theorem isDigitCh_lowerCh (c : Char) : isDigitCh (lowerCh c) = isDigitCh c := by
  simp only [isDigitCh, toNat_lowerCh]
  split
  · rw [decide_eq_decide]
    omega
  · rfl

theorem nf_idem (s : List Char) : nf (nf s) = nf s := by
  simp only [nf, List.map_map]
  exact List.map_congr_left fun c _ => lowerCh_idem c

theorem nf_append (a b : List Char) : nf (a ++ b) = nf a ++ nf b := by
  simp [nf]

theorem nf_length (s : List Char) : (nf s).length = s.length := by
  simp [nf]

theorem nf_isEmpty (s : List Char) : (nf s).isEmpty = s.isEmpty := by
  cases s <;> rfl



theorem lowerCh_eq_stable {d : Char} (h : stableCh d) (c : Char) : lowerCh c = d ↔ c = d :=
  lowerCh_eq_lit h.1 h.2 c

theorem findClose_nf {cl : Char} (h : stableCh cl) :
    ∀ s : List Char, findClose cl (nf s) = (findClose cl s).map nf := by
  intro s
  induction s with
  | nil => rfl
  | cons c cs ih =>
    show findClose cl (lowerCh c :: nf cs) = _
    simp only [findClose]
    by_cases hcl : c = cl
    · rw [if_pos ((lowerCh_eq_stable h c).mpr hcl), if_pos hcl]
      rfl
    · rw [if_neg (fun hh => hcl ((lowerCh_eq_stable h c).mp hh)), if_neg hcl]
      by_cases hnl : c = '\n'
      · rw [if_pos ((lowerCh_eq_stable (by constructor <;> decide) c).mpr hnl), if_pos hnl]
        rfl
      · rw [if_neg (fun hh => hnl ((lowerCh_eq_stable (by constructor <;> decide) c).mp hh)),
          if_neg hnl]
        exact ih

theorem removeDelim_nf {op cl : Char} (h1 : stableCh op) (h2 : stableCh cl) :
    ∀ (fuel : Nat) (s : List Char),
      removeDelim op cl fuel (nf s) = nf (removeDelim op cl fuel s) := by
  intro fuel
  induction fuel with
  | zero => intro s; rfl
  | succ fuel ih =>
    intro s
    cases s with
    | nil => rfl
    | cons c cs =>
      show removeDelim op cl (fuel + 1) (lowerCh c :: nf cs) = _
      simp only [removeDelim]
      by_cases hop : c = op
      · rw [if_pos ((lowerCh_eq_stable h1 c).mpr hop), if_pos hop, findClose_nf h2]
        cases hf : findClose cl cs with
        | none =>
          simp only [hf, Option.map_none']
          rw [ih cs]
          rfl
        | some rest => simp only [hf, Option.map_some']; rw [ih rest]
      · rw [if_neg (fun hh => hop ((lowerCh_eq_stable h1 c).mp hh)), if_neg hop]
        show lowerCh c :: removeDelim op cl fuel (nf cs) = _
        rw [ih cs]
        rfl

theorem sepReplace_nf (s : List Char) : sepReplace (nf s) = nf (sepReplace s) := by
  simp only [sepReplace, nf, List.map_map]
  apply List.map_congr_left
  intro c _
  show (if lowerCh c = '_' ∨ lowerCh c = '.' then ' ' else lowerCh c) =
    lowerCh (if c = '_' ∨ c = '.' then ' ' else c)
  by_cases hc : c = '_' ∨ c = '.'
  · have : lowerCh c = '_' ∨ lowerCh c = '.' := by
      rcases hc with hc | hc
      · exact Or.inl ((lowerCh_eq_stable (by constructor <;> decide) c).mpr hc)
      · exact Or.inr ((lowerCh_eq_stable (by constructor <;> decide) c).mpr hc)
    rw [if_pos this, if_pos hc]
    decide
  · have : ¬(lowerCh c = '_' ∨ lowerCh c = '.') := by
      intro hh
      rcases hh with hh | hh
      · exact hc (Or.inl ((lowerCh_eq_stable (by constructor <;> decide) c).mp hh))
      · exact hc (Or.inr ((lowerCh_eq_stable (by constructor <;> decide) c).mp hh))
    rw [if_neg this, if_neg hc]



theorem takeWhile_nf {p : Char → Bool} (hp : ∀ c, p (lowerCh c) = p c) (s : List Char) :
    (nf s).takeWhile p = nf (s.takeWhile p) := by
  show (s.map lowerCh).takeWhile p = _
  rw [List.takeWhile_map]
  have : (p ∘ lowerCh) = p := funext hp
  rw [this]
  rfl

theorem dropWhile_nf {p : Char → Bool} (hp : ∀ c, p (lowerCh c) = p c) (s : List Char) :
    (nf s).dropWhile p = nf (s.dropWhile p) := by
  show (s.map lowerCh).dropWhile p = _
  rw [List.dropWhile_map]
  have : (p ∘ lowerCh) = p := funext hp
  rw [this]
  rfl

theorem extRemove_nf (s : List Char) : extRemove (nf s) = nf (extRemove s) := by
  unfold extRemove
  have h1 : (nf s).reverse = nf s.reverse := by simp [nf]
  have h2 : (nf s).reverse.takeWhile isWordCh = nf (s.reverse.takeWhile isWordCh) := by
    rw [h1]
    exact takeWhile_nf isWordCh_lowerCh _
  have h3 : ((nf s).reverse.takeWhile isWordCh).length =
      (s.reverse.takeWhile isWordCh).length := by
    rw [h2, nf_length]
  have h4 : (nf s).reverse.drop ((nf s).reverse.takeWhile isWordCh).length =
      nf (s.reverse.drop (s.reverse.takeWhile isWordCh).length) := by
    rw [h3, h1]
    simp [nf, List.map_drop]
  rw [h4]
  have hie : ((nf s).reverse.takeWhile isWordCh).isEmpty =
      (s.reverse.takeWhile isWordCh).isEmpty := by
    rw [h2, nf_isEmpty]
  cases hd : s.reverse.drop (s.reverse.takeWhile isWordCh).length with
  | nil => rfl
  | cons c rest =>
    show (match lowerCh c :: nf rest with
      | c :: rest =>
        if c = '.' ∧ ¬((nf s).reverse.takeWhile isWordCh).isEmpty then rest.reverse
        else nf s
      | [] => nf s) = _
    simp only [hie]
    by_cases hc : c = '.' ∧ ¬(s.reverse.takeWhile isWordCh).isEmpty
    · have hc2 : lowerCh c = '.' ∧ ¬(s.reverse.takeWhile isWordCh).isEmpty :=
        ⟨(lowerCh_eq_stable (by constructor <;> decide) c).mpr hc.1, hc.2⟩
      rw [if_pos hc2, if_pos hc]
      simp [nf]
    · have hc2 : ¬(lowerCh c = '.' ∧ ¬(s.reverse.takeWhile isWordCh).isEmpty) := by
        intro hh
        exact hc ⟨(lowerCh_eq_stable (by constructor <;> decide) c).mp hh.1, hh.2⟩
      rw [if_neg hc2, if_neg hc]



theorem litPre_nf {p : List Char} (hp : ∀ c ∈ p, stableCh c) :
    ∀ s : List Char, litPre p (nf s) = litPre p s := by
  induction p with
  | nil => intro s; rfl
  | cons x xs ih =>
    intro s
    cases s with
    | nil => rfl
    | cons c cs =>
      show (decide (x = lowerCh c) && litPre xs (nf cs)) = (decide (x = c) && litPre xs cs)
      rw [ih (fun d hd => hp d (by simp [hd])) cs]
      have hb : decide (x = lowerCh c) = decide (x = c) := by
        rw [decide_eq_decide, eq_comm, lowerCh_eq_stable (hp x (by simp)) c, eq_comm]
      rw [hb]

theorem replaceAll_nf {p : List Char} (hp : ∀ c ∈ p, stableCh c) :
    ∀ (fuel : Nat) (s : List Char), replaceAll p fuel (nf s) = nf (replaceAll p fuel s) := by
  intro fuel
  induction fuel with
  | zero => intro s; rfl
  | succ fuel ih =>
    intro s
    cases s with
    | nil => rfl
    | cons c cs =>
      show replaceAll p (fuel + 1) (lowerCh c :: nf cs) = _
      simp only [replaceAll]
      have hlit : litPre p (lowerCh c :: nf cs) = litPre p (c :: cs) := litPre_nf hp (c :: cs)
      by_cases hcond : litPre p (c :: cs) = true ∧ p ≠ []
      · rw [if_pos ⟨by rw [hlit]; exact hcond.1, hcond.2⟩, if_pos hcond]
        have : (lowerCh c :: nf cs).drop p.length = nf ((c :: cs).drop p.length) := by
          show (nf (c :: cs)).drop p.length = _
          simp [nf, List.map_drop]
        rw [this, ih]
      · rw [if_neg (fun hh => hcond ⟨by rw [← hlit]; exact hh.1, hh.2⟩), if_neg hcond]
        show lowerCh c :: replaceAll p fuel (nf cs) = _
        rw [ih cs]
        rfl

theorem scanFirst_prop {α : Type} (P : α → Prop) (m : Option Char → List Char → Option α)
    (hm : ∀ prev t r, m prev t = some r → P r) :
    ∀ (prev : Option Char) (s : List Char) (r : α), scanFirst m prev s = some r → P r := by
  intro prev s
  induction s generalizing prev with
  | nil => intro r h; exact Option.noConfusion h
  | cons c cs ih =>
    intro r h
    simp only [scanFirst] at h
    cases hm2 : m prev (c :: cs) with
    | some r2 =>
      rw [hm2] at h
      injection h with h2
      subst h2
      exact hm prev (c :: cs) _ hm2
    | none =>
      rw [hm2] at h
      exact ih (some c) r h

theorem yearAt_digits {s y : List Char} (h : yearAt s = some y) :
    ∀ c ∈ y, isDigitCh c = true := by
  unfold yearAt at h
  split at h
  · split at h
    · next hcond =>
      injection h with h2
      subst h2
      intro c hc
      simp only [List.mem_cons, List.not_mem_nil, or_false] at hc
      rcases hc with rfl | rfl | rfl | rfl
      · decide
      · decide
      · rcases hcond.1 with h8 | h9
        · subst h8; decide
        · subst h9; decide
      · exact hcond.2.1
    · exact Option.noConfusion h
  · split at h
    · next hcond =>
      injection h with h2
      subst h2
      intro c hc
      simp only [List.mem_cons, List.not_mem_nil, or_false] at hc
      rcases hc with rfl | rfl | rfl | rfl
      · decide
      · decide
      · exact hcond.1
      · exact hcond.2.1
    · exact Option.noConfusion h
  · exact Option.noConfusion h

theorem yearSearch_digits {s y : List Char} (h : yearSearch s = some y) :
    ∀ c ∈ y, isDigitCh c = true := by
  unfold yearSearch at h
  have hm : ∀ (prev : Option Char) (t : List Char) (ds : List Char),
      (fun prev t => if boundaryB prev then yearAt t else none) prev t = some ds →
      ∀ c ∈ ds, isDigitCh c = true := by
    intro prev t ds hr
    simp only at hr
    split at hr
    · exact yearAt_digits hr
    · exact Option.noConfusion hr
  exact scanFirst_prop (fun ds => ∀ c ∈ ds, isDigitCh c = true) _ hm none s y h

theorem digit_stable {c : Char} (h : isDigitCh c = true) : stableCh c := by
  simp only [isDigitCh, decide_eq_true_eq] at h
  constructor <;> omega



theorem subAll_nf (m : Option Char → List Char → Option Nat) :
    ∀ (fuel : Nat) (prev : Option Char) (s : List Char),
      subAll m fuel prev (nf s) = nf (subAll m fuel prev s) := by
  intro fuel
  induction fuel with
  | zero => intro prev s; rfl
  | succ fuel ih =>
    intro prev s
    cases s with
    | nil => rfl
    | cons c cs =>
      show subAll m (fuel + 1) prev (lowerCh c :: nf cs) = _
      simp only [subAll]
      have hm : m prev (nf (lowerCh c :: nf cs)) = m prev (nf (c :: cs)) := by
        show m prev (nf (nf (c :: cs))) = _
        rw [nf_idem]
      rw [hm]
      cases hv : m prev (nf (c :: cs)) with
      | none =>
        show lowerCh c :: subAll m fuel (some (lowerCh (lowerCh c))) (nf cs) = _
        rw [lowerCh_idem, ih (some (lowerCh c)) cs]
        rfl
      | some n =>
        cases n with
        | zero =>
          show lowerCh c :: subAll m fuel (some (lowerCh (lowerCh c))) (nf cs) = _
          rw [lowerCh_idem, ih (some (lowerCh c)) cs]
          rfl
        | succ n =>
          have hpa : prevAfter (nf (lowerCh c :: nf cs)) (n + 1) =
              prevAfter (nf (c :: cs)) (n + 1) := by
            show prevAfter (nf (nf (c :: cs))) (n + 1) = _
            rw [nf_idem]
          have hdrop : (lowerCh c :: nf cs).drop (n + 1) = nf ((c :: cs).drop (n + 1)) := by
            show (nf (c :: cs)).drop (n + 1) = _
            simp [nf, List.map_drop]
          show subAll m fuel (prevAfter (nf (lowerCh c :: nf cs)) (n + 1))
              ((lowerCh c :: nf cs).drop (n + 1)) =
            nf (subAll m fuel (prevAfter (nf (c :: cs)) (n + 1)) ((c :: cs).drop (n + 1)))
          rw [hpa, hdrop, ih]

theorem splitWs_nf : ∀ (fuel : Nat) (s : List Char),
    splitWs fuel (nf s) = (splitWs fuel s).map nf := by
  intro fuel
  induction fuel with
  | zero => intro s; rfl
  | succ fuel ih =>
    intro s
    simp only [splitWs]
    rw [dropWhile_nf isSpaceCh_lowerCh]
    cases hd : s.dropWhile isSpaceCh with
    | nil => rfl
    | cons c cs =>
      show ((lowerCh c :: nf cs).takeWhile fun x => !isSpaceCh x) ::
          splitWs fuel ((lowerCh c :: nf cs).drop
            ((lowerCh c :: nf cs).takeWhile fun x => !isSpaceCh x).length) =
        List.map nf (((c :: cs).takeWhile fun x => !isSpaceCh x) ::
          splitWs fuel ((c :: cs).drop ((c :: cs).takeWhile fun x => !isSpaceCh x).length))
      have hsp : ∀ x, (!isSpaceCh (lowerCh x)) = !isSpaceCh x := by
        intro x
        rw [isSpaceCh_lowerCh]
      have htw : (lowerCh c :: nf cs).takeWhile (fun x => !isSpaceCh x) =
          nf ((c :: cs).takeWhile fun x => !isSpaceCh x) := by
        show (nf (c :: cs)).takeWhile (fun x => !isSpaceCh x) = _
        exact takeWhile_nf hsp (c :: cs)
      have hdr : (lowerCh c :: nf cs).drop ((c :: cs).takeWhile fun x => !isSpaceCh x).length =
          nf ((c :: cs).drop ((c :: cs).takeWhile fun x => !isSpaceCh x).length) := by
        show (nf (c :: cs)).drop _ = _
        simp [nf, List.map_drop]
      rw [htw, nf_length]  -- adjusts the length inside
      rw [hdr, ih]
      rfl

theorem joinWords_nf : ∀ ws : List (List Char), nf (joinWords ws) = joinWords (ws.map nf) := by
  intro ws
  induction ws with
  | nil => rfl
  | cons w ws ih =>
    cases ws with
    | nil => rfl
    | cons w2 ws2 =>
      show nf (w ++ ' ' :: joinWords (w2 :: ws2)) = nf w ++ ' ' :: joinWords ((w2 :: ws2).map nf)
      rw [nf_append, ← ih]
      rfl

theorem collapseWs_nf (s : List Char) : collapseWs (nf s) = nf (collapseWs s) := by
  unfold collapseWs
  rw [nf_length, splitWs_nf, joinWords_nf]

theorem pyStem_nf (s : List Char) : pyStem (nf s) = nf (pyStem s) := by
  unfold pyStem
  have hp : ∀ x, (fun c => decide (c ≠ '.')) (lowerCh x) = (fun c => decide (c ≠ '.')) x := by
    intro x
    simp only [decide_eq_decide]
    rw [ne_eq, lowerCh_eq_stable (by constructor <;> decide) x, ne_eq]
  have hrev : (nf s).reverse = nf s.reverse := by simp [nf]
  rw [hrev, takeWhile_nf hp, nf_length, nf_length]
  split
  · rfl
  · rw [show (nf s.reverse).drop ((s.reverse.takeWhile fun c => decide (c ≠ '.')).length + 1) =
        nf (s.reverse.drop ((s.reverse.takeWhile fun c => decide (c ≠ '.')).length + 1)) from by
      simp [nf, List.map_drop]]
    simp [nf]



theorem subAllStage_nf (m : Option Char → List Char → Option Nat) (s : List Char) :
    subAllStage m (nf s) = nf (subAllStage m s) := by
  unfold subAllStage
  rw [nf_length]
  exact subAll_nf m (s.length + 1) none s

theorem parenStage_nf (s : List Char) : parenStage (nf s) = nf (parenStage s) := by
  unfold parenStage
  rw [nf_length]
  exact removeDelim_nf (by constructor <;> decide) (by constructor <;> decide) (s.length + 1) s

theorem stripTags_nf (s : List Char) : stripTags (nf s) = nf (stripTags s) := by
  unfold stripTags
  rw [subAllStage_nf mSE, subAllStage_nf mEp, subAllStage_nf mSeason,
    subAllStage_nf (mWordAlt resQualAlts), subAllStage_nf (mWordAlt srcAlts),
    subAllStage_nf (mWordAlt audioTagAlts), subAllStage_nf (mWordAlt codecAlts),
    parenStage_nf]

theorem cleanedName_nf (f : List Char) : cleanedName (nf f) = nf (cleanedName f) := by
  unfold cleanedName
  rw [nf_length,
    removeDelim_nf (by constructor <;> decide) (by constructor <;> decide),
    extRemove_nf, sepReplace_nf]

theorem cleanedNoYear_nf (f : List Char) : cleanedNoYear (nf f) = nf (cleanedNoYear f) := by
  unfold cleanedNoYear
  rw [cleanedName_nf]
  show (match yearSearch (nf (nf (cleanedName f))) with
      | some y => replaceAll y ((nf (cleanedName f)).length + 1) (nf (cleanedName f))
      | none => nf (cleanedName f)) =
    nf (match yearSearch (nf (cleanedName f)) with
      | some y => replaceAll y ((cleanedName f).length + 1) (cleanedName f)
      | none => cleanedName f)
  rw [nf_idem]
  cases hy : yearSearch (nf (cleanedName f)) with
  | none => rfl
  | some y =>
    have hdig := yearSearch_digits hy
    rw [nf_length]
    exact replaceAll_nf (fun c hc => digit_stable (hdig c hc)) _ _

theorem extract_title_nf (f : List Char) :
    (extract_file_details (nf f)).title = nf ((extract_file_details f).title) := by
  rw [extract_title_eq, extract_title_eq, cleanedNoYear_nf, stripTags_nf, collapseWs_nf,
    nf_isEmpty]
  split
  · exact pyStem_nf f
  · rfl

theorem extract_year_nf (f : List Char) :
    (extract_file_details (nf f)).year = (extract_file_details f).year := by
  rw [extract_year_eq, extract_year_eq, cleanedName_nf, nf_idem]

theorem get_batch_key_eq (f : List Char) :
    get_batch_key f =
      nf ((extract_file_details f).title ++ '_' :: yearRepr (extract_file_details f).year) := by
  cases h : (extract_file_details f).type <;> simp [get_batch_key, h]

theorem get_batch_key_nf (f : List Char) : get_batch_key (nf f) = get_batch_key f := by
  rw [get_batch_key_eq, get_batch_key_eq, extract_title_nf, extract_year_nf, nf_append,
    nf_idem, ← nf_append]



/-- C9 (amended): the batch key is case-insensitive — two filenames that
agree after case folding produce the same batch key — and the spec's
concrete instance holds: `Show.Name.2020.S01E01.mkv` and
`show name 2020 s01e02.mkv` share the key `show name_2020`. Separator
insensitivity, by contrast, fails in general (see the counterexample):
when title extraction falls back to the raw filename stem, the stem keeps
its original separators. -/
theorem C9_case_insensitive_key (f g : List Char) (h : nf f = nf g) :
    get_batch_key f = get_batch_key g ∧
    get_batch_key "Show.Name.2020.S01E01.mkv".data =
      get_batch_key "show name 2020 s01e02.mkv".data := by
  constructor
  · rw [← get_batch_key_nf f, h, get_batch_key_nf g]
  · decide

/-- Witness for C9 (amended): case-folding instance. -/
theorem C9_witness :
    get_batch_key "A.mkv".data = get_batch_key "a.mkv".data ∧
    get_batch_key "Show.Name.2020.S01E01.mkv".data =
      get_batch_key "show name 2020 s01e02.mkv".data :=
  C9_case_insensitive_key "A.mkv".data "a.mkv".data (by rfl)

/-- C9 counterexample: two filenames whose names differ only in the choice
of separator (dot versus underscore) — their separator-folded case-folded
forms agree — map to different batch keys, because both classify to an
empty stripped title and fall back to the raw stem. -/
theorem C9_counterexample :
    sepFold "2160p.x264.mkv".data = sepFold "2160p_x264.mkv".data ∧
    get_batch_key "2160p.x264.mkv".data ≠ get_batch_key "2160p_x264.mkv".data := by
  exact ⟨by rfl, by decide⟩

end Lasun
